import Mathlib

/-!
Verification development for a small DTLS codebase:
* `dtls` package: the application-data record payload (`applicationData`)
  and elliptic-curve keypair generation (`generateKeypair`).
* `internal/udp`: a connection multiplexer (`Listener` / `Conn`) over a
  shared UDP socket.

Pure functions are embedded directly; the concurrent close protocol of the
multiplexer is embedded as a small labelled transition system mirroring the
lock/channel structure of the Go source.
-/

namespace DTLS

/-! ## Application data payload (`applicationData`) -/

/-- `applicationData` from the record layer: a transparent byte carrier. -/
structure applicationData where
  data : List UInt8
deriving Repr, DecidableEq

/-- `applicationData.Marshal`: ignores `fragmentLen`, returns a single
fragment holding a copy of the stored bytes, never an error. Go's
`append([]byte{}, a.data...)` is a plain copy of the list of bytes. -/
def applicationData.Marshal (a : applicationData) (_fragmentLen : Int) :
    Except String (List (List UInt8)) :=
  Except.ok [a.data]

/-- `applicationData.Unmarshal`: stores a copy of the input bytes, never an
error. -/
def applicationData.Unmarshal (data : List UInt8) : Except String applicationData :=
  Except.ok { data := data }

/-! ## Named curves and `generateKeypair` -/

/-- `namedCurve` is a `uint16` identifier. -/
abbrev namedCurve := Nat

def namedCurveP256 : namedCurve := 0x0017
def namedCurveP384 : namedCurve := 0x0018
def namedCurveP521 : namedCurve := 0x0019
def namedCurveX25519 : namedCurve := 0x001d

/-- The `namedCurves` support map from the source. -/
def namedCurves : List namedCurve :=
  [namedCurveX25519, namedCurveP256, namedCurveP384, namedCurveP521]

structure namedCurveKeypair where
  curve : namedCurve
  publicKey : List UInt8
  privateKey : List UInt8
deriving Repr

def errInvalidNamedCurve : String := "invalid named curve"

/-- The cryptographic primitives `generateKeypair` calls
(`crypto/rand.Read`, `curve25519.ScalarBaseMult`, `elliptic.GenerateKey`,
`elliptic.Marshal`), abstracted as oracles. The fallible ones —
`rand.Read` for the X25519 branch and `elliptic.GenerateKey` for the NIST
branches — return `Except`, matching the `if err != nil` checks in the
source; the curve arithmetic itself is opaque to the claims. -/
structure CryptoPrims where
  /-- result of `rand.Read(tmp)` for the 32-byte X25519 private key:
      the bytes read, or the read error -/
  x25519Rand : Except String (List UInt8)
  /-- `curve25519.ScalarBaseMult` applied to the private key -/
  scalarBaseMult : List UInt8 → List UInt8
  /-- result of `elliptic.GenerateKey` on P-256: private key bytes and the
      public point (x, y), or the generation error -/
  p256Key : Except String (List UInt8 × (Int × Int))
  p384Key : Except String (List UInt8 × (Int × Int))
  p521Key : Except String (List UInt8 × (Int × Int))
  /-- `elliptic.Marshal` on each curve -/
  marshalP256 : Int × Int → List UInt8
  marshalP384 : Int × Int → List UInt8
  marshalP521 : Int × Int → List UInt8

/-- Function `generateKeypair` from the source, with the crypto
primitives supplied by `prims`. The `switch` over the curve identifier
becomes an if-chain; each branch propagates its oracle's error exactly as
the source's `if err != nil { return nil, err }` does. Note how the
source's `namedCurveP384` and `namedCurveP521` branches build the keypair
with curve field `namedCurveP256`, exactly as written in the Go. -/
def generateKeypair (prims : CryptoPrims) (c : namedCurve) :
    Except String namedCurveKeypair :=
  if c = namedCurveX25519 then
    match prims.x25519Rand with
    | Except.error e => Except.error e
    | Except.ok tmp =>
      Except.ok ⟨namedCurveX25519, prims.scalarBaseMult tmp, tmp⟩
  else if c = namedCurveP256 then
    match prims.p256Key with
    | Except.error e => Except.error e
    | Except.ok k => Except.ok ⟨namedCurveP256, prims.marshalP256 k.2, k.1⟩
  else if c = namedCurveP384 then
    match prims.p384Key with
    | Except.error e => Except.error e
    | Except.ok k => Except.ok ⟨namedCurveP256, prims.marshalP384 k.2, k.1⟩
  else if c = namedCurveP521 then
    match prims.p521Key with
    | Except.error e => Except.error e
    | Except.ok k => Except.ok ⟨namedCurveP256, prims.marshalP521 k.2, k.1⟩
  else
    Except.error errInvalidNamedCurve

/-- Predicate: every fallible primitive succeeds, i.e. `rand.Read` and
each `elliptic.GenerateKey` return without error. -/
def CryptoPrims.allOk (prims : CryptoPrims) : Prop :=
  (∃ b, prims.x25519Rand = Except.ok b) ∧
  (∃ k, prims.p256Key = Except.ok k) ∧
  (∃ k, prims.p384Key = Except.ok k) ∧
  (∃ k, prims.p521Key = Except.ok k)

lemma generateKeypair_x25519_eq (prims : CryptoPrims) :
    generateKeypair prims namedCurveX25519 =
      match prims.x25519Rand with
      | Except.error e => Except.error e
      | Except.ok tmp =>
        Except.ok ⟨namedCurveX25519, prims.scalarBaseMult tmp, tmp⟩ := rfl

lemma generateKeypair_p256_eq (prims : CryptoPrims) :
    generateKeypair prims namedCurveP256 =
      match prims.p256Key with
      | Except.error e => Except.error e
      | Except.ok k =>
        Except.ok ⟨namedCurveP256, prims.marshalP256 k.2, k.1⟩ := rfl

lemma generateKeypair_p384_eq (prims : CryptoPrims) :
    generateKeypair prims namedCurveP384 =
      match prims.p384Key with
      | Except.error e => Except.error e
      | Except.ok k =>
        Except.ok ⟨namedCurveP256, prims.marshalP384 k.2, k.1⟩ := rfl

lemma generateKeypair_p521_eq (prims : CryptoPrims) :
    generateKeypair prims namedCurveP521 =
      match prims.p521Key with
      | Except.error e => Except.error e
      | Except.ok k =>
        Except.ok ⟨namedCurveP256, prims.marshalP521 k.2, k.1⟩ := rfl

end DTLS

namespace UDP

/-! Embedding of `internal/udp/conn.go`: the connection multiplexer. -/

def receiveMTU : Nat := 8192

def errClosedListener : String := "udp: listener closed"

/-- Registry and accept-side state of a `Listener`, as manipulated by
`Listen` and `Listener.getConn`. Conn identity is a `Nat` tag; `conns`
maps the remote address's string form to the tag; `acceptQueue` records
the conns handed to `acceptCh` in discovery order. -/
structure ListenerState where
  accepting : Bool
  conns : List (String × Nat)
  acceptQueue : List Nat
  nextConnId : Nat
deriving Repr, DecidableEq

/-- Function `Listen`: the Go composite literal initializes `pConn`,
`acceptCh`, `conns` and `doneCh` and leaves `accepting` at its zero value
`false`; no statement anywhere in the package assigns `accepting`. -/
def Listen : ListenerState :=
  { accepting := false, conns := [], acceptQueue := [], nextConnId := 0 }

/-- Map lookup `l.conns[raddr.String()]`. -/
def lookupConn (conns : List (String × Nat)) (addr : String) : Option Nat :=
  (conns.find? (fun kv => kv.1 = addr)).map (fun kv => kv.2)

/-- Method `Listener.getConn`: return the registered conn for `raddr`;
otherwise, when `accepting` holds, create one, register it and push it on
the accept channel; when not accepting, fail with `errClosedListener`. -/
def getConn (l : ListenerState) (raddr : String) :
    Except String (Nat × ListenerState) :=
  match lookupConn l.conns raddr with
  | some id => Except.ok (id, l)
  | none =>
    if ¬ l.accepting then Except.error errClosedListener
    else
      let id := l.nextConnId
      Except.ok (id, { l with conns := l.conns ++ [(raddr, id)],
                              acceptQueue := l.acceptQueue ++ [id],
                              nextConnId := id + 1 })

/-- One `readLoop` iteration's conn-resolution step for a datagram from
`raddr`: when `getConn` errors the datagram is dropped (`continue`). -/
def dispatchResolve (l : ListenerState) (raddr : String) : ListenerState :=
  match getConn l raddr with
  | Except.ok (_, l2) => l2
  | Except.error _ => l

/-- Effect on the listener state of a sequence of inbound datagrams with
the given source addresses. -/
def runDatagrams (l : ListenerState) (raddrs : List String) : ListenerState :=
  raddrs.foldl dispatchResolve l

/-- Go's `copy(dst, src)`: copies `min |dst| |src|` bytes into the prefix
of `dst`, leaves the rest of `dst` unchanged, and returns that count. -/
def goCopy (dst src : List UInt8) : List UInt8 × Nat :=
  let n := min dst.length src.length
  (src.take n ++ dst.drop n, n)

/-- Resolution of a two-way Go `select` when both cases are ready. -/
inductive SelectChoice
  | deliver
  | closeSignal
deriving DecidableEq, Repr

/-- Result of `Conn.Read`: `ok buf n` is `return n, nil` with the caller's
buffer after the copy; `eof buf` is `return 0, io.EOF` with the untouched
buffer; `blocked` means neither select case is ready and Read blocks. -/
inductive ReadOutcome
  | ok (buf : List UInt8) (n : Nat)
  | eof (buf : List UInt8)
  | blocked
deriving DecidableEq, Repr

/-- Method `Conn.Read p`: a select between offering `p` on `readCh` —
enabled exactly when the dispatch loop is parked in its own select
delivering a (truncated) datagram to this conn — and receiving on the
closed `doneCh`. When both are enabled, the Go runtime picks either case;
`choice` resolves that nondeterminism. -/
def connRead (closed : Bool) (pendingDelivery : Option (List UInt8))
    (p : List UInt8) (choice : SelectChoice) : ReadOutcome :=
  match pendingDelivery, closed with
  | some d, true =>
    match choice with
    | SelectChoice.deliver =>
      let r := goCopy p d
      ReadOutcome.ok r.1 r.2
    | SelectChoice.closeSignal => ReadOutcome.eof p
  | some d, false =>
    let r := goCopy p d
    ReadOutcome.ok r.1 r.2
  | none, true => ReadOutcome.eof p
  | none, false => ReadOutcome.blocked

/-- Delivery path of `readLoop` for one datagram: `ReadFrom` reads into a
fixed `receiveMTU`-byte buffer (truncating the datagram), then
`copy(cBuf, buf[:n])` fills the caller's buffer and yields the count sent
back on `sizeCh` and returned by `Read`. -/
def deliverDatagram (callerBuf datagram : List UInt8) : List UInt8 × Nat :=
  goCopy callerBuf (datagram.take receiveMTU)

/-- Per-`Conn` state as read and written by `Write` and `Close`.
`doneClosed` is whether `doneCh` has been closed, `doneOnceUsed` whether
`doneOnce` has been consumed, `hasListener` whether `c.listener` is still
non-nil. -/
structure ConnState where
  rAddr : String
  doneClosed : Bool
  doneOnceUsed : Bool
  hasListener : Bool
deriving Repr, DecidableEq

/-- Method `Conn.Close` acting on the conn and its listener's registry:
guarded by `doneOnce`, it closes `doneCh`, deletes the conn's registry
entry under the listener lock and clears `c.listener`. The Go `err` local
is never assigned, so the returned error is always nil. -/
def connClose (c : ConnState) (conns : List (String × Nat)) :
    ConnState × List (String × Nat) × Option String :=
  if c.doneOnceUsed then (c, conns, none)
  else
    ({ c with doneClosed := true, doneOnceUsed := true, hasListener := false },
     conns.filter (fun kv => ¬ kv.1 = c.rAddr),
     none)

/-- Result of `Conn.Write`: `eof` is `return 0, io.EOF`; `sent` is a
direct `pConn.WriteTo(p, c.rAddr)` on the shared socket, which returns the
byte count. -/
inductive WriteOutcome
  | eof
  | sent (payload : List UInt8) (dest : String) (n : Nat)
deriving DecidableEq, Repr

/-- Method `Conn.Write p`: EOF when the owning-listener reference has been
cleared; otherwise one direct `WriteTo` on the shared socket addressed to
the conn's remote address, bypassing the dispatch loop. -/
def connWrite (c : ConnState) (p : List UInt8) : WriteOutcome :=
  if ¬ c.hasListener then WriteOutcome.eof
  else WriteOutcome.sent p c.rAddr p.length

/-- State touched by `Listener.Close`: the `doneOnce` guard, the `doneCh`
shutdown signal and whether `pConn.Close()` has run. -/
structure ListenerCloseState where
  doneOnceUsed : Bool
  doneChClosed : Bool
  socketClosed : Bool
deriving Repr, DecidableEq

/-- Ticks spent in `closeConn`'s polling loop when the registry starts
non-empty: the loop wakes every `closeRecheckDuration` (100 ms), exits at
the first wake-up where the registry has drained, and otherwise when the
timer fires after `timeoutTicks` wake-ups. `connsAtTick k` is
`len(l.conns)` observed at the k-th wake-up. -/
def closeConnWait (connsAtTick : Nat → Nat) (timeoutTicks : Nat) : Nat :=
  match timeoutTicks with
  | 0 => 0
  | t + 1 =>
    if connsAtTick 1 = 0 then 1
    else 1 + closeConnWait (fun k => connsAtTick (k + 1)) t

/-- Method `Listener.Close(timeout)` run to completion: guarded by
`doneOnce`, it closes `doneCh` and runs `closeConn`, which closes the
socket immediately when the registry is empty and otherwise polls. Returns
the new state, the recheck ticks waited before `pConn.Close()` (0 means
immediately), and the returned error: `sockErr` abstracts the value
`pConn.Close()` returns; outside the `doneOnce` body `err` stays nil. -/
def listenerClose (s : ListenerCloseState) (connsCount : Nat)
    (connsAtTick : Nat → Nat) (timeoutTicks : Nat) (sockErr : Option String) :
    ListenerCloseState × Nat × Option String :=
  if s.doneOnceUsed then (s, 0, none)
  else
    let s1 : ListenerCloseState :=
      { doneOnceUsed := true, doneChClosed := true, socketClosed := true }
    if connsCount = 0 then (s1, 0, sockErr)
    else (s1, closeConnWait connsAtTick timeoutTicks, sockErr)

/-! Interleaving model of the graceful-close protocol. `Listener.Close`
takes the listener's write lock and holds it (by `defer`) through the
whole `closeConn` polling loop, while `Conn.Close` must take the same lock
to delete its registry entry. The transition system below has the two
tasks and the grace timer as the only actors, mirroring exactly the
lock-protected statements of the source. -/

/-- Tasks contending for the listener's registry lock during shutdown. -/
inductive Task
  | listenerCloser
  | peerCloser
deriving DecidableEq, Repr

/-- Program counter of the task running `Listener.Close`. -/
inductive LPc
  /-- inside `closeConn`'s polling loop, lock held -/
  | polling
  /-- `Listener.Close` returned; the deferred unlock has run -/
  | done
deriving DecidableEq, Repr

/-- Program counter of the task running the peer's `Conn.Close`. -/
inductive PPc
  /-- blocked acquiring `c.listener.lock` -/
  | acquiring
  /-- lock acquired, about to delete the registry entry -/
  | deleting
  /-- `Conn.Close` returned -/
  | done
deriving DecidableEq, Repr

/-- Joint state of the two close tasks, the registry and the timer. -/
structure CloseSys where
  lockHolder : Option Task
  conns : Nat
  timerFired : Bool
  socketClosed : Bool
  lpc : LPc
  ppc : PPc
deriving DecidableEq, Repr

/-- Interleaved steps of `Listener.Close` (holding the lock through
`closeConn`), a peer's `Conn.Close` (which must take the same lock to
delete its registry entry), and the grace timer. -/
inductive CloseStep : CloseSys → CloseSys → Prop
  /-- the grace timer expires -/
  | timerFires (s : CloseSys) (h : s.timerFired = false) :
      CloseStep s { s with timerFired := true }
  /-- a polling recheck finds the registry drained: close the socket,
      return, release the lock -/
  | pollDrained (s : CloseSys) (h1 : s.lpc = LPc.polling)
      (h2 : s.lockHolder = some Task.listenerCloser) (h3 : s.conns = 0) :
      CloseStep s { s with socketClosed := true, lpc := LPc.done,
                           lockHolder := none }
  /-- the timer case of the select fires: force-close the socket, return,
      release the lock -/
  | pollTimeout (s : CloseSys) (h1 : s.lpc = LPc.polling)
      (h2 : s.lockHolder = some Task.listenerCloser) (h3 : s.timerFired = true) :
      CloseStep s { s with socketClosed := true, lpc := LPc.done,
                           lockHolder := none }
  /-- the peer's `Conn.Close` acquires the lock, possible only while free -/
  | peerAcquires (s : CloseSys) (h1 : s.ppc = PPc.acquiring)
      (h2 : s.lockHolder = none) :
      CloseStep s { s with lockHolder := some Task.peerCloser,
                           ppc := PPc.deleting }
  /-- the peer's `Conn.Close` deletes its entry and releases the lock -/
  | peerDeletes (s : CloseSys) (h1 : s.ppc = PPc.deleting)
      (h2 : s.lockHolder = some Task.peerCloser) :
      CloseStep s { s with conns := s.conns - 1, lockHolder := none,
                           ppc := PPc.done }

/-- The scenario of the graceful-close claim: one peer in the registry,
`Listener.Close` has taken the lock and entered the polling loop, and the
peer has invoked its own `Conn.Close`. -/
def closeInit : CloseSys :=
  { lockHolder := some Task.listenerCloser, conns := 1, timerFired := false,
    socketClosed := false, lpc := LPc.polling, ppc := PPc.acquiring }

/-- Reachability from the scenario's initial state. -/
def CloseReach (s : CloseSys) : Prop :=
  Relation.ReflTransGen CloseStep closeInit s

/-- Inductive invariant of the scenario: while `Listener.Close` is
polling it holds the lock, the registry is stuck at one entry and the peer
is still blocked; the socket only ever closes after the timer has fired;
and the peer makes progress only after `Listener.Close` has returned. -/
def CloseInv (s : CloseSys) : Prop :=
  (s.lpc = LPc.polling →
    s.lockHolder = some Task.listenerCloser ∧ s.conns = 1 ∧ s.ppc = PPc.acquiring)
  ∧ (s.socketClosed = true → s.timerFired = true)
  ∧ (s.lpc = LPc.done → s.socketClosed = true)
  ∧ (s.ppc ≠ PPc.acquiring → s.lpc = LPc.done)

lemma closeInv_init : CloseInv closeInit := by
  simp [CloseInv, closeInit]

lemma closeInv_step {s t : CloseSys} (hInv : CloseInv s) (hstep : CloseStep s t) :
    CloseInv t := by
  obtain ⟨h1, h2, h3, h4⟩ := hInv
  cases hstep with
  | timerFires h =>
      exact ⟨h1, fun _ => rfl, h3, h4⟩
  | pollDrained hl hk hc =>
      exfalso
      have := (h1 hl).2.1
      omega
  | pollTimeout hl hk ht =>
      refine ⟨fun hp => ?_, fun _ => ht, fun _ => rfl, fun _ => rfl⟩
      simp at hp
  | peerAcquires hp hk =>
      have hdone : s.lpc = LPc.done := by
        cases hl : s.lpc with
        | polling => exact absurd ((h1 hl).1.symm.trans hk) (by simp)
        | done => rfl
      exact ⟨fun hp2 => absurd (hdone.symm.trans hp2) (by simp), h2, h3,
             fun _ => hdone⟩
  | peerDeletes hp hk =>
      have hdone : s.lpc = LPc.done := h4 (by simp [hp])
      exact ⟨fun hp2 => absurd (hdone.symm.trans hp2) (by simp), h2, h3,
             fun _ => hdone⟩

lemma closeInv_reach {s : CloseSys} (h : CloseReach s) : CloseInv s := by
  induction h with
  | refl => exact closeInv_init
  | tail hsteps hstep ih => exact closeInv_step ih hstep

/-- Intermediate states of the witnessed schedule: timer fires, the
polling loop force-closes the socket and releases the lock, only then the
peer's `Conn.Close` gets the lock and finishes. -/
def closeMid1 : CloseSys :=
  { lockHolder := some Task.listenerCloser, conns := 1, timerFired := true,
    socketClosed := false, lpc := LPc.polling, ppc := PPc.acquiring }

def closeMid2 : CloseSys :=
  { lockHolder := none, conns := 1, timerFired := true,
    socketClosed := true, lpc := LPc.done, ppc := PPc.acquiring }

def closeMid3 : CloseSys :=
  { lockHolder := some Task.peerCloser, conns := 1, timerFired := true,
    socketClosed := true, lpc := LPc.done, ppc := PPc.deleting }

def closeFinal : CloseSys :=
  { lockHolder := none, conns := 0, timerFired := true,
    socketClosed := true, lpc := LPc.done, ppc := PPc.done }

lemma closeFinal_reach : CloseReach closeFinal := by
  have t1 : CloseStep closeInit closeMid1 := CloseStep.timerFires closeInit rfl
  have t2 : CloseStep closeMid1 closeMid2 :=
    CloseStep.pollTimeout closeMid1 rfl rfl rfl
  have t3 : CloseStep closeMid2 closeMid3 :=
    CloseStep.peerAcquires closeMid2 rfl rfl
  have t4 : CloseStep closeMid3 closeFinal :=
    CloseStep.peerDeletes closeMid3 rfl rfl
  exact Relation.ReflTransGen.tail
    (Relation.ReflTransGen.tail
      (Relation.ReflTransGen.tail
        (Relation.ReflTransGen.tail Relation.ReflTransGen.refl t1) t2) t3) t4

/-- Sample conn for concrete evaluations. -/
def sampleConn : ConnState :=
  { rAddr := "1.2.3.4:5678", doneClosed := false, doneOnceUsed := false,
    hasListener := true }

end UDP

namespace DTLS

/-- Trivial concrete instantiation of the crypto primitives in which
every fallible oracle succeeds. -/
def trivPrims : CryptoPrims :=
  { x25519Rand := Except.ok [], scalarBaseMult := fun _ => [],
    p256Key := Except.ok ([], (0, 0)), p384Key := Except.ok ([], (0, 0)),
    p521Key := Except.ok ([], (0, 0)),
    marshalP256 := fun _ => [], marshalP384 := fun _ => [],
    marshalP521 := fun _ => [] }

end DTLS

namespace UDP

/-- C1: REFUTED on the code. After `Listen` the `accepting` flag holds its
zero value `false` and no statement in the package ever sets it, so
`getConn` rejects every datagram from an unseen source address with
`errClosedListener`: no Peer Connection is ever created, registered or
delivered via accept — a sequence of datagrams from any number of distinct
addresses leaves the listener state unchanged. -/
theorem getConn_never_accepts :
    ∀ (raddr : String) (raddrs : List String),
      getConn Listen raddr = Except.error errClosedListener ∧
      runDatagrams Listen raddrs = Listen := by
  intro raddr raddrs
  constructor
  · rfl
  · induction raddrs with
    | nil => rfl
    | cons r rs ih =>
        have hstep : dispatchResolve Listen r = Listen := rfl
        simpa [runDatagrams, hstep] using ih

/-- C2: in the scenario where `Listener.Close` has entered its polling
loop (holding the registry write lock for the whole loop) with one peer
registered and that peer has invoked its own `Conn.Close`, every reachable
state satisfies: the socket is closed only after the grace timer has
fired, and the peer's close completes only after the socket is already
closed — the registry can never drain during the grace period, so the
graceful-drain path of the claim is unreachable. -/
theorem listenerClose_graceful_drain_deadlock :
    ∀ s : CloseSys, CloseReach s →
      (s.socketClosed = true → s.timerFired = true) ∧
      (s.ppc = PPc.done → s.socketClosed = true) := by
  intro s h
  obtain ⟨h1, h2, h3, h4⟩ := closeInv_reach h
  refine ⟨h2, fun hp => ?_⟩
  exact h3 (h4 (by simp [hp]))

/-- Witness for the deadlock theorem: the schedule timer-fires,
force-close, peer-acquires, peer-deletes reaches a state with the socket
closed, and the theorem instantiates there. -/
theorem listenerClose_graceful_drain_deadlock_witness :
    closeFinal.timerFired = true ∧ closeFinal.socketClosed = true :=
  have h := listenerClose_graceful_drain_deadlock closeFinal closeFinal_reach
  ⟨h.1 rfl, h.2 rfl⟩

/-- C3 counterexample: with the dispatch loop parked delivering byte 0x07
to a conn that is already closed, a Read whose select takes the rendezvous
case copies one byte into the caller's buffer and returns `1, nil` — not
EOF with an untouched buffer. -/
theorem connRead_after_close_counterexample :
    connRead true (some [7]) [0, 0] SelectChoice.deliver
        = ReadOutcome.ok [7, 0] 1 ∧
    connRead true (some [7]) [0, 0] SelectChoice.deliver
        ≠ ReadOutcome.eof [0, 0] := by
  constructor
  · rfl
  · decide

/-- C3 (amended): a Read on a closed conn returns EOF with zero bytes
copied and the caller's buffer untouched whenever no datagram delivery is
parked on the conn, or the select race resolves in favor of the close
signal. -/
theorem connRead_after_close_eof :
    ∀ (pending : Option (List UInt8)) (p : List UInt8) (choice : SelectChoice),
      pending = none ∨ choice = SelectChoice.closeSignal →
      connRead true pending p choice = ReadOutcome.eof p := by
  intro pending p choice h
  rcases h with h | h
  · subst h; rfl
  · subst h; cases pending <;> rfl

theorem connRead_after_close_eof_witness :
    ((none : Option (List UInt8)) = none ∨
      SelectChoice.deliver = SelectChoice.closeSignal) ∧
    connRead true none [0, 0] SelectChoice.deliver = ReadOutcome.eof [0, 0] :=
  ⟨Or.inl rfl,
   connRead_after_close_eof none [0, 0] SelectChoice.deliver (Or.inl rfl)⟩

/-- C4: the first `Conn.Close` signals the done channel, clears the
listener reference, deletes exactly the conn's registry entry and returns
no error; every later close changes nothing and returns no error. -/
theorem connClose_idempotent :
    ∀ (c : ConnState) (conns conns2 : List (String × Nat)),
      c.doneOnceUsed = false →
      (connClose c conns).1.doneClosed = true ∧
      (connClose c conns).1.hasListener = false ∧
      (connClose c conns).2.1 = conns.filter (fun kv => ¬ kv.1 = c.rAddr) ∧
      (connClose c conns).2.2 = none ∧
      connClose (connClose c conns).1 conns2
          = ((connClose c conns).1, conns2, none) := by
  intro c conns conns2 h
  simp [connClose, h]

theorem connClose_idempotent_witness :
    sampleConn.doneOnceUsed = false ∧
    (connClose sampleConn []).2.2 = none ∧
    connClose (connClose sampleConn []).1 []
        = ((connClose sampleConn []).1, [], none) :=
  have h := connClose_idempotent sampleConn [] [] rfl
  ⟨rfl, h.2.2.2.1, h.2.2.2.2⟩

/-- C5: before close, `Conn.Write` is one direct send of the buffer on
the shared socket addressed to the conn's remote address (no dispatch-loop
involvement appears in its definition); after the first close has cleared
the listener reference it fails with EOF. -/
theorem connWrite_direct_then_eof :
    ∀ (c : ConnState) (conns : List (String × Nat)) (p : List UInt8),
      c.hasListener = true →
      c.doneOnceUsed = false →
      connWrite c p = WriteOutcome.sent p c.rAddr p.length ∧
      connWrite (connClose c conns).1 p = WriteOutcome.eof := by
  intro c conns p h1 h2
  constructor
  · simp [connWrite, h1]
  · simp [connWrite, connClose, h2]

theorem connWrite_direct_then_eof_witness :
    sampleConn.hasListener = true ∧ sampleConn.doneOnceUsed = false ∧
    connWrite sampleConn [3]
        = WriteOutcome.sent [3] "1.2.3.4:5678" 1 ∧
    connWrite (connClose sampleConn []).1 [3] = WriteOutcome.eof :=
  have h := connWrite_direct_then_eof sampleConn [] [3] rfl rfl
  ⟨rfl, rfl, h.1, h.2⟩

/-- C6: a first `Listener.Close` on an empty registry closes the socket
with zero wait, returning the socket-close error; a second close leaves
the state unchanged and returns no error. -/
theorem listenerClose_idempotent_empty_immediate :
    ∀ (s : ListenerCloseState) (f f2 : Nat → Nat) (t t2 : Nat)
      (e e2 : Option String) (c2 : Nat),
      s.doneOnceUsed = false →
      listenerClose s 0 f t e =
        ({ doneOnceUsed := true, doneChClosed := true, socketClosed := true },
         0, e) ∧
      listenerClose
        { doneOnceUsed := true, doneChClosed := true, socketClosed := true }
        c2 f2 t2 e2 =
        ({ doneOnceUsed := true, doneChClosed := true, socketClosed := true },
         0, none) := by
  intro s f f2 t t2 e e2 c2 h
  constructor
  · simp [listenerClose, h]
  · simp [listenerClose]

theorem listenerClose_idempotent_empty_immediate_witness :
    ({ doneOnceUsed := false, doneChClosed := false, socketClosed := false } :
      ListenerCloseState).doneOnceUsed = false ∧
    listenerClose
      { doneOnceUsed := false, doneChClosed := false, socketClosed := false }
      0 (fun _ => 0) 5 none =
      ({ doneOnceUsed := true, doneChClosed := true, socketClosed := true },
       0, none) :=
  have h := listenerClose_idempotent_empty_immediate
    { doneOnceUsed := false, doneChClosed := false, socketClosed := false }
    (fun _ => 0) (fun _ => 0) 5 5 none none 0 rfl
  ⟨rfl, h.1⟩

/-- C10: a successful Read receives `min` of the caller's buffer length
and the `receiveMTU`-truncated datagram length — hence never more than
`min (buffer length) 8192` — and the caller's buffer keeps its length,
datagram bytes beyond those bounds being discarded. -/
theorem read_bytes_bounded :
    ∀ (p d : List UInt8),
      (deliverDatagram p d).2 = min p.length (min d.length receiveMTU) ∧
      (deliverDatagram p d).2 ≤ min p.length receiveMTU ∧
      (deliverDatagram p d).1.length = p.length := by
  intro p d
  refine ⟨?_, ?_, ?_⟩ <;> (simp [deliverDatagram, goCopy]; try omega)

end UDP

namespace DTLS

/-- C7: when the fallible primitives (`rand.Read`,
`elliptic.GenerateKey`) succeed, `generateKeypair` returns a keypair for
each of the four supported named-curve identifiers; for every other
identifier value it fails with `errInvalidNamedCurve`, unconditionally
(the unsupported path consults no primitive). -/
theorem generateKeypair_supported_iff :
    ∀ (prims : CryptoPrims) (c : namedCurve),
      (c ∈ namedCurves → prims.allOk →
        ∃ kp, generateKeypair prims c = Except.ok kp) ∧
      (c ∉ namedCurves →
        generateKeypair prims c = Except.error errInvalidNamedCurve) := by
  intro prims c
  constructor
  · intro h hok
    obtain ⟨⟨b, hb⟩, ⟨k2, hk2⟩, ⟨k3, hk3⟩, ⟨k4, hk4⟩⟩ := hok
    simp [namedCurves] at h
    rcases h with h | h | h | h <;> subst h
    · rw [generateKeypair_x25519_eq, hb]; exact ⟨_, rfl⟩
    · rw [generateKeypair_p256_eq, hk2]; exact ⟨_, rfl⟩
    · rw [generateKeypair_p384_eq, hk3]; exact ⟨_, rfl⟩
    · rw [generateKeypair_p521_eq, hk4]; exact ⟨_, rfl⟩
  · intro h
    simp [namedCurves] at h
    obtain ⟨h1, h2, h3, h4⟩ := h
    simp [generateKeypair, h1, h2, h3, h4]

theorem generateKeypair_supported_iff_witness :
    (namedCurveX25519 ∈ namedCurves ∧ trivPrims.allOk ∧
      ∃ kp, generateKeypair trivPrims namedCurveX25519 = Except.ok kp) ∧
    ((0x001a : namedCurve) ∉ namedCurves ∧
      generateKeypair trivPrims 0x001a = Except.error errInvalidNamedCurve) :=
  ⟨⟨by decide, ⟨⟨[], rfl⟩, ⟨([], (0, 0)), rfl⟩, ⟨([], (0, 0)), rfl⟩,
      ⟨([], (0, 0)), rfl⟩⟩,
    (generateKeypair_supported_iff trivPrims namedCurveX25519).1 (by decide)
      ⟨⟨[], rfl⟩, ⟨([], (0, 0)), rfl⟩, ⟨([], (0, 0)), rfl⟩,
       ⟨([], (0, 0)), rfl⟩⟩⟩,
   ⟨by decide,
    (generateKeypair_supported_iff trivPrims 0x001a).2 (by decide)⟩⟩

/-- C8: `Unmarshal` always succeeds, storing a copy of the input, and
`Marshal` returns that copy as one fragment for every fragment length, so
the round trip reproduces the input unchanged. -/
theorem applicationData_roundtrip :
    ∀ (d : List UInt8) (fragmentLen : Int),
      (applicationData.Unmarshal d).bind
          (fun a => a.Marshal fragmentLen) = Except.ok [d] := by
  intro d fragmentLen
  rfl

/-- C9: REFUTED on the code — the `namedCurveP384` and `namedCurveP521`
branches of `generateKeypair` build the keypair with curve field
`namedCurveP256`, so every execution that returns a keypair at all for
those identifiers returns one whose curve field is `namedCurveP256`,
which differs from the requested identifier. -/
theorem generateKeypair_mislabels_p384_p521 :
    ∀ (prims : CryptoPrims) (kp : namedCurveKeypair),
      (generateKeypair prims namedCurveP384 = Except.ok kp →
        kp.curve = namedCurveP256) ∧
      (generateKeypair prims namedCurveP521 = Except.ok kp →
        kp.curve = namedCurveP256) ∧
      namedCurveP256 ≠ namedCurveP384 ∧ namedCurveP256 ≠ namedCurveP521 := by
  intro prims kp
  refine ⟨?_, ?_, by decide, by decide⟩
  · intro h
    rw [generateKeypair_p384_eq] at h
    cases hk : prims.p384Key with
    | error e => rw [hk] at h; exact Except.noConfusion h
    | ok k =>
        rw [hk] at h
        injection h with h2
        rw [← h2]
  · intro h
    rw [generateKeypair_p521_eq] at h
    cases hk : prims.p521Key with
    | error e => rw [hk] at h; exact Except.noConfusion h
    | ok k =>
        rw [hk] at h
        injection h with h2
        rw [← h2]

theorem generateKeypair_mislabels_p384_p521_witness :
    generateKeypair trivPrims namedCurveP384
        = Except.ok ⟨namedCurveP256, [], []⟩ ∧
    (⟨namedCurveP256, [], []⟩ : namedCurveKeypair).curve = namedCurveP256 :=
  ⟨rfl,
   (generateKeypair_mislabels_p384_p521 trivPrims
      ⟨namedCurveP256, [], []⟩).1 rfl⟩

end DTLS
